import Mathlib

/-!
Shallow embedding of the `intelligentAgent` repository (ReAct agent with
conversation compaction), translated from the Python sources:

* `src/schemas/messages.py`  — `ToolCall`, `Message`, `ReActLoop`
* `src/schemas/responses.py` — `ToolResult`, `AgentResponse`
* `src/llm/models.py`        — `LLMResponse`
* `src/agents/base.py`       — `BaseAgent._add_message`
* `src/agents/summarizer.py` — `SummarizerAgent`
* `src/agents/react.py`      — `ReActAgent`

External effects (the OpenAI chat completions, the tool registry with
pydantic validation and tool execution) are modelled as oracle functions
passed in explicitly; everything the agent itself computes is translated
directly from the source.  Machine integers in the source are plain Python
ints, so `Nat` is used without wrap-around.  Python operations that can
raise (list indexing) return `Option`, with `none` standing for an uncaught
exception.
-/

namespace IntelligentAgent

/-- Python `dict[str, Any]` tool arguments, modelled as an association list
with string-rendered values (the agent never inspects argument values, it
only threads them through and renders them with `str`). -/
abbrev ToolArgs := List (String × String)

/-- `ToolCall` from `src/schemas/messages.py`: a tool call requested by the
LLM, with `id`, `name` and an `arguments` dict. -/
structure ToolCall where
  id : String
  name : String
  arguments : ToolArgs
deriving DecidableEq, Repr

/-- `Message` from `src/schemas/messages.py`: a message of the conversation
history. Optional fields default to `None` in the source. -/
structure Message where
  role : String
  content : Option String
  tool_calls : Option (List ToolCall)
  tool_call_id : Option String
  name : Option String
deriving DecidableEq, Repr

/-- Python truthiness of an `Optional[List[ToolCall]]` value
(`None` and `[]` are falsy). -/
def pyTruthyCalls : Option (List ToolCall) → Bool
  | some (_ :: _) => true
  | _ => false

/-- Python truthiness of an `Optional[str]` value (`None` and `""` are
falsy). -/
def pyTruthyStr : Option String → Bool
  | some s => !(s == "")
  | none => false

/-- Python `x or default` on an `Optional[str]`: the default is used when
the content is `None` or the empty string. -/
def pyOr (c : Option String) (d : String) : String :=
  match c with
  | some s => if s = "" then d else s
  | none => d

/-- Python `f"{x}"` on an `Optional[str]` (`None` renders as `"None"`). -/
def pyStr (c : Option String) : String :=
  match c with
  | some s => s
  | none => "None"

/-- `ReActLoop` from `src/schemas/messages.py`: the messages of a single
think-act-observe cycle, its iteration number, and the tools used in it. -/
structure ReActLoop where
  messages : List Message
  iteration : Nat
  tools_used : List String
deriving DecidableEq, Repr

/-- `ReActLoop.add_message`: appends the message built from the given
fields, and, when a truthy `tool_calls` keyword is present, records each
tool name not already present in `tools_used` (in call order). -/
def ReActLoop.add_message (loop : ReActLoop) (role : String)
    (content : Option String) (tool_calls : Option (List ToolCall))
    (tool_call_id : Option String) : ReActLoop :=
  let msg : Message := ⟨role, content, tool_calls, tool_call_id, none⟩
  let tools :=
    if pyTruthyCalls tool_calls then
      (tool_calls.getD []).foldl
        (fun acc tc => if tc.name ∈ acc then acc else acc ++ [tc.name])
        loop.tools_used
    else loop.tools_used
  { loop with messages := loop.messages ++ [msg], tools_used := tools }

/-- `ReActLoop.get_messages`. -/
def ReActLoop.get_messages (loop : ReActLoop) : List Message :=
  loop.messages

/-- One recorded `_add_message` call (role, content and the keyword
arguments the engine actually passes).  `ReActAgent.run` populates each
loop exclusively through such calls. -/
structure AddEntry where
  role : String
  content : Option String
  tool_calls : Option (List ToolCall)
  tool_call_id : Option String

/-- A loop as built by the engine: `ReActLoop(iteration=...)` starts with
empty `messages` and `tools_used` and receives every entry through
`ReActLoop.add_message` (which incrementally accumulates `tools_used`). -/
def buildLoop (iteration : Nat) (entries : List AddEntry) : ReActLoop :=
  entries.foldl
    (fun l e => l.add_message e.role e.content e.tool_calls e.tool_call_id)
    ⟨[], iteration, []⟩

/-- `LLMResponse` from `src/llm/models.py`.  NOTE: the source class
declares exactly the fields `content`, `tool_calls` and `finish_reason`
(see `LLMResponse.sourceFields`); `ReActAgent.run` nevertheless reads a
`context_length` attribute from the Reason response
(`src/agents/react.py` line 93), which this class does not provide. -/
structure LLMResponse where
  content : Option String
  tool_calls : Option (List ToolCall)
  finish_reason : String
deriving DecidableEq, Repr

/-- The field names that `LLMResponse` declares in `src/llm/models.py`
(lines 13-15), in declaration order. -/
def LLMResponse.sourceFields : List String :=
  ["content", "tool_calls", "finish_reason"]

/-- `LLMResponse.has_tool_calls`: `bool(self.tool_calls)`. -/
def LLMResponse.has_tool_calls (r : LLMResponse) : Bool :=
  pyTruthyCalls r.tool_calls

/-- `ToolResult` from `src/schemas/responses.py`. -/
structure ToolResult where
  tool_call_id : String
  arguments : ToolArgs
  content : String
deriving DecidableEq, Repr

/-- `AgentResponse` from `src/schemas/responses.py`. -/
structure AgentResponse where
  answer : String
  reasoning_trace : List String
  tools_used : List String
  iterations : Nat
deriving DecidableEq, Repr

/-! ### SummarizerAgent (`src/agents/summarizer.py`) -/

/-- One step of the fold inside
`SummarizerAgent._format_messages_for_summary`: the accumulator is the
pair (formatted lines, tool-name set).  The Python `set` is modelled as a
duplicate-free list in first-insertion order; the claims compare it only
up to membership. -/
def summaryStep (acc : List String × List String) (msg : Message) :
    List String × List String :=
  if msg.role = "system" then
    acc
  else if msg.role = "user" then
    (acc.1 ++ ["USER: " ++ pyStr msg.content], acc.2)
  else if msg.role = "assistant" then
    if pyTruthyCalls msg.tool_calls then
      let tool_names := (msg.tool_calls.getD []).map ToolCall.name
      let tools := tool_names.foldl
        (fun s n => if n ∈ s then s else s ++ [n]) acc.2
      let lines :=
        if pyTruthyStr msg.content then
          acc.1 ++ ["ASSISTANT: " ++ pyStr msg.content]
        else acc.1
      (lines ++ ["ASSISTANT: [Called tools: " ++
        String.intercalate ", " tool_names ++ "]"], tools)
    else if pyTruthyStr msg.content then
      (acc.1 ++ ["ASSISTANT: " ++ pyStr msg.content], acc.2)
    else acc
  else if msg.role = "tool" then
    (acc.1 ++ ["TOOL RESULT: " ++ pyStr msg.content], acc.2)
  else acc

/-- `SummarizerAgent._format_messages_for_summary`: one pass over the
messages producing the formatted conversation text and the list of unique
tool names used. -/
def format_messages_for_summary (messages : List Message) :
    String × List String :=
  let acc := messages.foldl summaryStep ([], [])
  (String.intercalate "\n" acc.1, acc.2)

/-- `SummarizerAgent.summarize_loop`.  The LLM call
(`self._llm_client.chat` on the system prompt plus the formatted
conversation) is the oracle `so`, mapping the conversation text to the
`content` of the chat response; `cursor` is `self._loop_summerized` at call
time.  `loop.get_messages()[0]` raises `IndexError` on an empty loop,
modelled by `none`. -/
def summarize_loop (so : String → Option String) (cursor : Nat)
    (loop : ReActLoop) : Option ReActLoop :=
  let ft := format_messages_for_summary loop.get_messages
  let summary_text := pyOr (so ft.1) "Summary generation failed."
  match loop.get_messages with
  | [] => none
  | user_msg :: _ =>
    some (ReActLoop.add_message ⟨[user_msg], cursor, ft.2⟩
      "summary" (some summary_text) none none)

/-- `SummarizerAgent.compact_conversation`: starting at the internal
cursor (`self._loop_summerized`), summarize `loops_to_summarize` loops in
place, advancing the cursor by one for each.  The unguarded
`loops[self._loop_summerized]` raises `IndexError` when the cursor is out
of range, modelled by `none`; the result is the new cursor and the updated
loop list. -/
def compact_conversation (so : String → Option String) (cursor : Nat)
    (loops : List ReActLoop) (loops_to_summarize : Nat) :
    Option (Nat × List ReActLoop) :=
  match loops_to_summarize with
  | 0 => some (cursor, loops)
  | n + 1 =>
    if h : cursor < loops.length then
      match summarize_loop so cursor (loops.get ⟨cursor, h⟩) with
      | none => none
      | some sl => compact_conversation so (cursor + 1) (loops.set cursor sl) n
    else none

/-! ### ReActAgent (`src/agents/react.py`) -/

/-- Agent configuration (`src/config.py` / `ReActAgent.__init__`): the
iteration bound and the two compaction thresholds. -/
structure AgentConfig where
  max_iterations : Nat
  compact_after_loops : Nat
  compact_context_threshold : Nat
deriving DecidableEq, Repr

/-- The mutable state of a `ReActAgent`: the global message history
(`self._messages`, from `BaseAgent`), the loop history (`self._loops`),
the monotonic loop counter (`self._loop_counter`), the context length
observed from the most recent Reason call
(`self._current_context_length`), and the summarizer's cursor
(`SummarizerAgent._loop_summerized`). -/
structure AgentState where
  messages : List Message
  loops : List ReActLoop
  loop_counter : Nat
  current_context_length : Nat
  loop_summerized : Nat
deriving DecidableEq, Repr

/-- Apply `f` to the last element of a list, if any (Python
`self._loops[-1]` mutation through `_get_current_loop`). -/
def modifyLast (f : ReActLoop → ReActLoop) : List ReActLoop → List ReActLoop
  | [] => []
  | [l] => [f l]
  | l :: l2 :: ls => l :: modifyLast f (l2 :: ls)

/-- `ReActAgent._add_message`: appends the message to the global history
(`BaseAgent._add_message`) and, when a current loop exists, also to that
loop via `ReActLoop.add_message`. -/
def ReActAgent.add_message (s : AgentState) (role : String)
    (content : Option String) (tool_calls : Option (List ToolCall))
    (tool_call_id : Option String) : AgentState :=
  { s with
    messages := s.messages ++ [⟨role, content, tool_calls, tool_call_id, none⟩],
    loops := modifyLast
      (fun l => l.add_message role content tool_calls tool_call_id) s.loops }

/-- `ReActAgent._build_full_conversation_from_loops`: the system message
(when the global history starts with one) followed by the concatenation of
every loop's messages, in loop order. -/
def build_full_conversation_from_loops (s : AgentState) : List Message :=
  (match s.messages with
   | [] => []
   | m :: _ => if m.role = "system" then [m] else []) ++
  (s.loops.map ReActLoop.messages).flatten

/-- `ReActAgent.clear_loop_history`: `self._loops.clear()`; the summarizer
cursor is untouched. -/
def clear_loop_history (s : AgentState) : AgentState :=
  { s with loops := [] }

/-- The agent state right after `ReActAgent.__init__`: the system message
has been added to the global history (no loop exists yet), all counters
are zero. -/
def initState (system_prompt : String) : AgentState :=
  { messages := [⟨"system", some system_prompt, none, none, none⟩]
    loops := []
    loop_counter := 0
    current_context_length := 0
    loop_summerized := 0 }

/-- The fixed user message `ReActAgent._reason` appends to the global
history before calling the LLM. -/
def nudgeMessage : Message :=
  ⟨"user",
   some ("Think step-by-step: What information do you have? " ++
     "What do you still need? What tool calls should call next and in what order?"),
   none, none, none⟩

/-- Rendering of a Python tool-arguments dict by `str(...)`; the exact
repr is irrelevant to every claim, only that it is a function of the
arguments. -/
def dictStr (d : ToolArgs) : String :=
  "\x7b" ++ String.intercalate ", " (d.map fun kv => kv.1 ++ ": " ++ kv.2) ++ "\x7d"

/-- The body of the `try` block in `ReActAgent._act` for one tool call
(registry lookup, pydantic validation of the arguments, `tool.execute`) is
external code, modelled by the oracle `tex`; `Except.error e` stands for
an exception raised anywhere in the block with `str(e) = e`.  The
`except` clause turns a fault into a `ToolResult` whose content is
`"Error executing tool: " ++ e`. -/
def execute_tool_call (tex : ToolCall → Except String String)
    (tc : ToolCall) : ToolResult :=
  match tex tc with
  | .ok content => ⟨tc.id, tc.arguments, content⟩
  | .error e => ⟨tc.id, tc.arguments, "Error executing tool: " ++ e⟩

/-- `ReActAgent._act`: iterate over the batch, appending one result per
tool call (faults are captured per call by `execute_tool_call`). -/
def act (tex : ToolCall → Except String String)
    (tool_calls : List ToolCall) : List ToolResult :=
  tool_calls.foldl (fun results tc => results ++ [execute_tool_call tex tc]) []

/-- `ReActAgent._observe`: add the assistant message carrying the tool
calls, then one `tool` message per result (content suffixed with the
rendered arguments), each tagged with its `tool_call_id`. -/
def observe (s : AgentState) (tool_calls : List ToolCall)
    (results : List ToolResult) : AgentState :=
  let s1 := ReActAgent.add_message s "assistant" none (some tool_calls) none
  results.foldl
    (fun st r => ReActAgent.add_message st "tool"
      (some (r.content ++ " (with arguments: " ++ dictStr r.arguments ++ ")"))
      none (some r.tool_call_id))
    s1

/-- `ReActAgent._format_observations`: truncate each result to 200
characters (suffixing `"..."`) and join with `" | "`. -/
def format_observations (results : List ToolResult) : String :=
  String.intercalate " | "
    (results.map fun r =>
      if r.content.length > 200 then r.content.take 200 ++ "..." else r.content)

/-- `ReActAgent._compact_conversation`: delegate to the summarizer with
the default `loops_to_summarize = 1`, then rebuild the global history from
the loops.  `none` models the summarizer's uncaught `IndexError`
propagating out. -/
def agent_compact_conversation (so : String → Option String)
    (s : AgentState) : Option AgentState :=
  match compact_conversation so s.loop_summerized s.loops 1 with
  | none => none
  | some (cursor, loops) =>
    let s1 := { s with loops := loops, loop_summerized := cursor }
    some { s1 with messages := build_full_conversation_from_loops s1 }

/-- What the two LLM calls of one ReAct iteration return: the Reason
response's `content` and the `context_length` attribute `run` reads from
it (`src/agents/react.py` lines 92-93), and the Decide-Action response. -/
structure IterationStub where
  reason_content : Option String
  reason_context_length : Nat
  action : LLMResponse
deriving Repr

/-- `MaxIterationsError`'s message, naming the limit
(`src/agents/react.py` lines 156-159). -/
def maxIterationsMessage (n : Nat) : String :=
  "Agent did not complete task in " ++ toString n ++
    " iterations. Consider increasing max_iterations or simplifying the query."

/-- The outcome of `ReActAgent.run`: a structured `AgentResponse`, or the
`MaxIterationsError` raised when the iteration bound is exhausted. -/
inductive RunResult where
  | success (response : AgentResponse)
  | max_iterations_error (message : String)
deriving DecidableEq, Repr

/-- Ghost trace of the observable calls `run` makes, used to state the
claims: each Reason call (with the state it was made from, the exact
message list sent, and the context length its response reported), each
Decide-Action call, each Act/Observe batch, and each invocation of the
Compaction Engine. -/
inductive RunEvent where
  | reason (pre : AgentState) (ctx : List Message) (ctx_len : Nat)
  | decide_action (response : LLMResponse)
  | act_observe (results : List ToolResult)
  | compact
deriving DecidableEq, Repr

/-- The `for iteration in range(self._max_iterations)` loop of
`ReActAgent.run`, with the iteration counter and remaining fuel explicit
(`iteration + fuel = max_iterations` at the top-level call).  `stubs i`
gives the LLM responses of iteration `i`; `tex` executes tool calls; `so`
is the summarizer's LLM.  Returns `none` when the Python code would raise
an exception other than `MaxIterationsError` (the summarizer's unguarded
index). -/
def runIter (cfg : AgentConfig) (tex : ToolCall → Except String String)
    (so : String → Option String) (stubs : Nat → IterationStub) :
    Nat → Nat → AgentState → List String → List String → List RunEvent →
    Option (RunResult × AgentState × List RunEvent)
  | _, 0, s, _, _, events =>
    some (.max_iterations_error (maxIterationsMessage cfg.max_iterations), s, events)
  | iteration, fuel + 1, s, reasoning_trace, tools_used, events =>
    let stub := stubs iteration
    let events := events ++ [RunEvent.reason s (s.messages ++ [nudgeMessage]) stub.reason_context_length]
    let reasoning_text := pyOr stub.reason_content ""
    let s := { s with current_context_length := stub.reason_context_length }
    let reasoning_trace := reasoning_trace ++ ["Thought: " ++ reasoning_text]
    let s := ReActAgent.add_message s "assistant" (some ("Thought: " ++ reasoning_text)) none none
    let action := stub.action
    let events := events ++ [RunEvent.decide_action action]
    if action.has_tool_calls then
      let tcs := action.tool_calls.getD []
      let results := act tex tcs
      let tools_used := tools_used ++ tcs.map ToolCall.name
      let s := observe s tcs results
      let reasoning_trace := reasoning_trace ++
        ["Action: Used tools " ++ String.intercalate ", " (tcs.map ToolCall.name)]
      let reasoning_trace := reasoning_trace ++
        ["Observation: " ++ format_observations results]
      let events := events ++ [RunEvent.act_observe results]
      runIter cfg tex so stubs (iteration + 1) fuel s reasoning_trace tools_used events
    else
      let s := { s with loop_counter := s.loop_counter + 1 }
      let response : AgentResponse :=
        { answer := pyOr action.content "No answer provided"
          reasoning_trace := reasoning_trace
          tools_used := tools_used.dedup
          iterations := iteration + 1 }
      if cfg.compact_after_loops ≤ s.loop_counter ∨
          cfg.compact_context_threshold ≤ s.current_context_length then
        match agent_compact_conversation so s with
        | none => none
        | some s2 => some (.success response, s2, events ++ [RunEvent.compact])
      else
        some (.success response, s, events)

/-- `ReActAgent.run`: append a fresh loop carrying the current loop
counter, add the user query (to both histories), then iterate.  The
Python `set` used for `list(set(tools_used))` is modelled by
`List.dedup`; the claims inspect it only up to membership and
duplicate-freedom. -/
def run (cfg : AgentConfig) (tex : ToolCall → Except String String)
    (so : String → Option String) (stubs : Nat → IterationStub)
    (s : AgentState) (query : String) :
    Option (RunResult × AgentState × List RunEvent) :=
  let s := { s with loops := s.loops ++ [⟨[], s.loop_counter, []⟩] }
  let s := ReActAgent.add_message s "user" (some query) none none
  runIter cfg tex so stubs 0 cfg.max_iterations s [] [] []

/-- Number of Decide-Action invocations recorded in a trace. -/
def decideCount (events : List RunEvent) : Nat :=
  (events.filter fun e =>
    match e with
    | RunEvent.decide_action _ => true
    | _ => false).length

/-- The events of a run outcome (`[]` when the run raised). -/
def eventsOf (r : Option (RunResult × AgentState × List RunEvent)) :
    List RunEvent :=
  match r with
  | some (_, _, ev) => ev
  | none => []

/-- The conversation invariant `run` maintains before compaction: the
global history starts with the system message, and the reconstruction of
`_build_full_conversation_from_loops` equals the global history. -/
def ConvInv (s : AgentState) : Prop :=
  (∃ m rest, s.messages = m :: rest ∧ m.role = "system") ∧
    build_full_conversation_from_loops s = s.messages

/-- The state shape of a fresh agent's first `run` call: summarizer cursor
zero and a single, non-empty loop. -/
def FreshInv (s : AgentState) : Prop :=
  s.loop_summerized = 0 ∧ ∃ l, s.loops = [l] ∧ l.messages ≠ []

/-- First Reason event of a trace: the state it was issued from and the
message list sent to the LLM. -/
def firstReasonEvent (ev : List RunEvent) : Option (AgentState × List Message) :=
  ev.findSome? fun e =>
    match e with
    | RunEvent.reason pre ctx _ => some (pre, ctx)
    | _ => none

/-! ### Concrete fixtures used by the witness theorems -/

/-- A tool executor whose call with id "2" raises. -/
def texW : ToolCall → Except String String := fun tc =>
  if tc.id = "2" then Except.error "boom" else Except.ok ("ok-" ++ tc.name)

/-- A summarization backend that returns text. -/
def soW : String → Option String := fun _ => some "a summary"

/-- A summarization backend that returns no text. -/
def soFailW : String → Option String := fun _ => none

/-- LLM stubs that answer immediately (no tool calls), reporting context
length 7. -/
def stubsC4 : Nat → IterationStub := fun _ => ⟨none, 7, ⟨some "a", none, "stop"⟩⟩

/-- LLM stubs that always request a tool call. -/
def stubsAllW : Nat → IterationStub := fun _ =>
  ⟨some "think", 5, ⟨none, some [⟨"1", "calculator", []⟩], "tool_calls"⟩⟩

/-- max_iterations 1, compact_after_loops 5, compact_context_threshold 9. -/
def cfgC4 : AgentConfig := ⟨1, 5, 9⟩

/-- max_iterations 2, compact_after_loops 3, compact_context_threshold 50000. -/
def cfg2W : AgentConfig := ⟨2, 3, 50000⟩

/-- A three-call batch whose second call faults under `texW`. -/
def tcsW : List ToolCall :=
  [⟨"1", "calculator", []⟩, ⟨"2", "stock", []⟩, ⟨"3", "calculator", []⟩]

/-- A populated engine loop (user query, then a tool-calling assistant
message). -/
def loopW : ReActLoop :=
  ⟨[⟨"user", some "q", none, none, none⟩,
    ⟨"assistant", none, some [⟨"1", "calculator", []⟩], none, none⟩],
   0, ["calculator"]⟩

/-- A second engine loop. -/
def loopW2 : ReActLoop := ⟨[⟨"user", some "q2", none, none, none⟩], 1, []⟩

/-- The `_add_message` calls of one two-tool iteration. -/
def entriesW : List AddEntry :=
  [⟨"user", some "q", none, none⟩,
   ⟨"assistant", some "Thought: t", none, none⟩,
   ⟨"assistant", none, some [⟨"1", "calculator", []⟩, ⟨"2", "stock", []⟩], none⟩,
   ⟨"tool", some "42", none, some "1"⟩]

/-- The loop `summarize_loop soW 0 (buildLoop 0 entriesW)` produces. -/
def slW : ReActLoop :=
  ⟨[⟨"user", some "q", none, none, none⟩,
    ⟨"summary", some "a summary", none, none, none⟩],
   0, ["calculator", "stock"]⟩

/-- The state `run cfgC4 texW soW stubsC4 (initState "s") "q"` issues its
only Reason call from. -/
def c1pre : AgentState :=
  ⟨[⟨"system", some "s", none, none, none⟩, ⟨"user", some "q", none, none, none⟩],
   [⟨[⟨"user", some "q", none, none, none⟩], 0, []⟩], 0, 0, 0⟩

/-- The response of `run cfgC4 texW soW stubsC4 (initState "s") "q"`. -/
def c4resp : AgentResponse := ⟨"a", ["Thought: "], [], 1⟩

/-- The final state of that run. -/
def c4s2 : AgentState :=
  ⟨[⟨"system", some "s", none, none, none⟩, ⟨"user", some "q", none, none, none⟩,
    ⟨"assistant", some "Thought: ", none, none, none⟩],
   [⟨[⟨"user", some "q", none, none, none⟩,
      ⟨"assistant", some "Thought: ", none, none, none⟩], 0, []⟩],
   1, 7, 0⟩

/-- The event trace of that run. -/
def c4ev2 : List RunEvent :=
  [RunEvent.reason c1pre (c1pre.messages ++ [nudgeMessage]) 7,
   RunEvent.decide_action ⟨some "a", none, "stop"⟩]

/-- An agent state with one loop whose summarizer cursor has advanced. -/
def c10state : AgentState :=
  ⟨[⟨"system", some "s", none, none, none⟩], [loopW], 1, 0, 1⟩

/-! ### Helper lemmas -/

lemma foldl_concat_map {α β : Type} (f : α → β) :
    ∀ (l : List α) (acc : List β),
      l.foldl (fun rs x => rs ++ [f x]) acc = acc ++ l.map f := by
  intro l
  induction l with
  | nil => intro acc; simp
  | cons x xs ih => intro acc; simp [ih]

lemma act_eq_map (tex : ToolCall → Except String String)
    (tcs : List ToolCall) : act tex tcs = tcs.map (execute_tool_call tex) := by
  simpa using foldl_concat_map (execute_tool_call tex) tcs []

lemma add_message_messages (s : AgentState) (role : String)
    (content : Option String) (tcs : Option (List ToolCall))
    (tcid : Option String) :
    (ReActAgent.add_message s role content tcs tcid).messages =
      s.messages ++ [⟨role, content, tcs, tcid, none⟩] := rfl

lemma observe_messages (s : AgentState) (tcs : List ToolCall)
    (results : List ToolResult) :
    (observe s tcs results).messages =
      s.messages ++ [⟨"assistant", none, some tcs, none, none⟩] ++
        results.map (fun r =>
          ⟨"tool", some (r.content ++ " (with arguments: " ++ dictStr r.arguments ++ ")"),
           none, some r.tool_call_id, none⟩) := by
  have key : ∀ (rs : List ToolResult) (s0 : AgentState),
      (rs.foldl (fun st r => ReActAgent.add_message st "tool"
        (some (r.content ++ " (with arguments: " ++ dictStr r.arguments ++ ")"))
        none (some r.tool_call_id)) s0).messages =
      s0.messages ++ rs.map (fun r =>
        ⟨"tool", some (r.content ++ " (with arguments: " ++ dictStr r.arguments ++ ")"),
         none, some r.tool_call_id, none⟩) := by
    intro rs
    induction rs with
    | nil => intro s0; simp
    | cons r rs ih => intro s0; simp [ih, add_message_messages]
  simpa [observe, add_message_messages] using key results
    (ReActAgent.add_message s "assistant" none (some tcs) none)

lemma summarize_loop_cons (so : String → Option String) (cursor : Nat)
    (loop : ReActLoop) (m : Message) (ms : List Message)
    (h : loop.messages = m :: ms) :
    summarize_loop so cursor loop = some
      { messages := [m,
          ⟨"summary",
           some (pyOr (so (format_messages_for_summary loop.messages).1)
             "Summary generation failed."),
           none, none, none⟩]
        iteration := cursor
        tools_used := (format_messages_for_summary loop.messages).2 } := by
  unfold summarize_loop ReActLoop.get_messages
  rw [h]
  simp [ReActLoop.add_message, pyTruthyCalls]

lemma compact_conversation_oob (so : String → Option String) :
    ∀ (n cursor : Nat) (loops : List ReActLoop),
      loops.length - cursor < n →
      compact_conversation so cursor loops n = none := by
  intro n
  induction n with
  | zero => intro cursor loops h; omega
  | succ n ih =>
    intro cursor loops h
    unfold compact_conversation
    split
    · rename_i hlt
      cases hsl : summarize_loop so cursor (loops.get ⟨cursor, hlt⟩) with
      | none => rfl
      | some sl =>
        simp only [hsl]
        exact ih (cursor + 1) (loops.set cursor sl) (by simp; omega)
    · rfl

lemma compact_conversation_spec (so : String → Option String) :
    ∀ (n cursor : Nat) (loops : List ReActLoop),
      cursor + n ≤ loops.length →
      (∀ l ∈ loops, l.messages ≠ []) →
      ∃ loops2,
        compact_conversation so cursor loops n = some (cursor + n, loops2) ∧
        loops2.length = loops.length ∧
        (∀ l ∈ loops2, l.messages ≠ []) ∧
        (∀ i : Nat, i < cursor ∨ cursor + n ≤ i → loops2[i]? = loops[i]?) ∧
        (∀ i : Nat, cursor ≤ i → i < cursor + n →
          loops2[i]? = (loops[i]?).bind (summarize_loop so i)) := by
  intro n
  induction n with
  | zero =>
    intro cursor loops _ hne
    exact ⟨loops, by simp [compact_conversation], rfl, hne, fun i _ => rfl, fun i h1 h2 => by omega⟩
  | succ n ih =>
    intro cursor loops hlen hne
    have hlt : cursor < loops.length := by omega
    have hmem : loops.get ⟨cursor, hlt⟩ ∈ loops := loops.get_mem cursor hlt
    obtain ⟨m, ms, hm⟩ : ∃ m ms, (loops.get ⟨cursor, hlt⟩).messages = m :: ms := by
      cases hcm : (loops.get ⟨cursor, hlt⟩).messages with
      | nil => exact absurd hcm (hne _ hmem)
      | cons a as => exact ⟨a, as, rfl⟩
    have hsl := summarize_loop_cons so cursor (loops.get ⟨cursor, hlt⟩) m ms hm
    set sl : ReActLoop :=
      { messages := [m,
          ⟨"summary",
           some (pyOr (so (format_messages_for_summary (loops.get ⟨cursor, hlt⟩).messages).1)
             "Summary generation failed."),
           none, none, none⟩]
        iteration := cursor
        tools_used := (format_messages_for_summary (loops.get ⟨cursor, hlt⟩).messages).2 }
      with hsl_def
    have hne2 : ∀ l ∈ loops.set cursor sl, l.messages ≠ [] := by
      intro l hl
      rcases List.mem_or_eq_of_mem_set hl with h | h
      · exact hne l h
      · rw [h, hsl_def]; simp
    have hlen2 : (cursor + 1) + n ≤ (loops.set cursor sl).length := by
      simp [List.length_set]; omega
    obtain ⟨loops2, heq, hl2, hne3, huntouched, hsummed⟩ :=
      ih (cursor + 1) (loops.set cursor sl) hlen2 hne2
    refine ⟨loops2, ?_, ?_, hne3, ?_, ?_⟩
    · unfold compact_conversation
      rw [dif_pos hlt, hsl]
      simp only []
      rw [heq]
      congr 2
      omega
    · rw [hl2]; simp
    · intro i hi
      have hne_i : cursor ≠ i := by omega
      have : loops2[i]? = (loops.set cursor sl)[i]? := huntouched i (by omega)
      rw [this, List.getElem?_set_ne hne_i]
    · intro i h1 h2
      by_cases hcase : i = cursor
      · subst hcase
        have : loops2[i]? = (loops.set i sl)[i]? := huntouched i (by omega)
        rw [this, List.getElem?_set_eq_of_lt sl hlt]
        rw [List.getElem?_eq_getElem hlt]
        simp only [Option.some_bind]
        rw [← List.get_eq_getElem loops ⟨i, hlt⟩]
        exact hsl.symm
      · have : loops2[i]? = ((loops.set cursor sl)[i]?).bind (summarize_loop so i) :=
          hsummed i (by omega) (by omega)
        rw [this, List.getElem?_set_ne (by omega : cursor ≠ i)]

lemma mem_insertFold (x : String) :
    ∀ (l : List String) (acc : List String),
      x ∈ l.foldl (fun s n => if n ∈ s then s else s ++ [n]) acc ↔
        x ∈ acc ∨ x ∈ l := by
  intro l
  induction l with
  | nil => intro acc; simp
  | cons n ns ih =>
    intro acc
    by_cases h : n ∈ acc
    · simp only [List.foldl_cons, if_pos h, ih]
      constructor
      · rintro (ha | hn)
        · exact Or.inl ha
        · exact Or.inr (List.mem_cons_of_mem n hn)
      · rintro (ha | hn)
        · exact Or.inl ha
        · rcases List.mem_cons.mp hn with he | hn
          · exact Or.inl (he ▸ h)
          · exact Or.inr hn
    · simp only [List.foldl_cons, if_neg h, ih, List.mem_append,
        List.mem_singleton, List.mem_cons]
      tauto

lemma mem_insertFoldName (x : String) :
    ∀ (l : List ToolCall) (acc : List String),
      x ∈ l.foldl (fun s tc => if tc.name ∈ s then s else s ++ [tc.name]) acc ↔
        x ∈ acc ∨ x ∈ l.map ToolCall.name := by
  intro l
  induction l with
  | nil => intro acc; simp
  | cons tc tcs ih =>
    intro acc
    by_cases h : tc.name ∈ acc
    · simp only [List.foldl_cons, if_pos h, ih, List.map_cons, List.mem_cons]
      constructor
      · rintro (ha | hn)
        · exact Or.inl ha
        · exact Or.inr (Or.inr hn)
      · rintro (ha | he | hn)
        · exact Or.inl ha
        · exact Or.inl (he ▸ h)
        · exact Or.inr hn
    · simp only [List.foldl_cons, if_neg h, ih, List.map_cons, List.mem_cons,
        List.mem_append, List.mem_singleton]
      tauto

lemma add_message_tools_mem (l : ReActLoop) (role : String)
    (content : Option String) (tcs : Option (List ToolCall))
    (tcid : Option String) (x : String) :
    x ∈ (l.add_message role content tcs tcid).tools_used ↔
      x ∈ l.tools_used ∨
        (pyTruthyCalls tcs = true ∧ x ∈ (tcs.getD []).map ToolCall.name) := by
  unfold ReActLoop.add_message
  by_cases h : pyTruthyCalls tcs = true
  · simp only [h, if_true]
    rw [mem_insertFoldName]
    simp [h]
  · simp [h]

lemma summaryStep_snd_mem (acc : List String × List String) (m : Message)
    (x : String) :
    x ∈ (summaryStep acc m).2 ↔
      x ∈ acc.2 ∨
        (m.role = "assistant" ∧ pyTruthyCalls m.tool_calls = true ∧
          x ∈ (m.tool_calls.getD []).map ToolCall.name) := by
  unfold summaryStep
  split_ifs with h1 h2 h3 h4 h5 h6 h7
  · simp [h1]
  · simp [h2]
  · simp only []
    rw [mem_insertFold]
    simp [h3, h4]
  · simp only []
    rw [mem_insertFold]
    simp [h3, h4]
  · simp [h3, h4]
  · simp [h3, h4]
  · simp [h3]
  · simp [h3]

lemma buildLoop_collect_inv :
    ∀ (entries : List AddEntry) (l : ReActLoop),
      (∀ e ∈ entries, pyTruthyCalls e.tool_calls = true → e.role = "assistant") →
      (∀ x, x ∈ (l.messages.foldl summaryStep ([], [])).2 ↔ x ∈ l.tools_used) →
      ∀ x, x ∈ (((entries.foldl
          (fun l e => l.add_message e.role e.content e.tool_calls e.tool_call_id) l)).messages.foldl
            summaryStep ([], [])).2 ↔
        x ∈ (entries.foldl
          (fun l e => l.add_message e.role e.content e.tool_calls e.tool_call_id) l).tools_used := by
  intro entries
  induction entries with
  | nil => intro l _ hinv x; exact hinv x
  | cons e es ih =>
    intro l hroles hinv x
    refine ih (l.add_message e.role e.content e.tool_calls e.tool_call_id)
      (fun e2 he2 => hroles e2 (List.mem_cons_of_mem e he2)) ?_ x
    intro y
    have hmsgs : (l.add_message e.role e.content e.tool_calls e.tool_call_id).messages =
        l.messages ++ [⟨e.role, e.content, e.tool_calls, e.tool_call_id, none⟩] := rfl
    rw [hmsgs, List.foldl_append, List.foldl_cons, List.foldl_nil, summaryStep_snd_mem,
      add_message_tools_mem, hinv y]
    simp only []
    constructor
    · rintro (hy | ⟨_, ht, hn⟩)
      · exact Or.inl hy
      · exact Or.inr ⟨ht, hn⟩
    · rintro (hy | ⟨ht, hn⟩)
      · exact Or.inl hy
      · exact Or.inr ⟨hroles e (List.mem_cons_self e es) ht, ht, hn⟩

/-! ### Claims -/

/-- **C5** (code bug): the spec says every Model Gateway response carries a
`context_length` integer field, and `ReActAgent.run` indeed records
`reasoning_response.context_length` after each Reason step
(`src/agents/react.py` line 93) — but the `LLMResponse` class of
`src/llm/models.py` declares no such field, so that attribute access
fails on every response the client returns. -/
theorem spec_C5 : "context_length" ∉ LLMResponse.sourceFields := by
  decide

/-- **C7**: summarizing a loop yields a replacement loop holding exactly
two messages — the first message of the original loop followed by one
synthetic `summary`-role message carrying the generated text — with
`iteration` equal to the current cursor value and `tools_used` equal to
the tool names collected from the transcript. -/
theorem spec_C7 (so : String → Option String) (cursor : Nat)
    (loop : ReActLoop) (m : Message) (ms : List Message)
    (h : loop.messages = m :: ms) :
    summarize_loop so cursor loop = some
      { messages := [m,
          ⟨"summary",
           some (pyOr (so (format_messages_for_summary loop.messages).1)
             "Summary generation failed."),
           none, none, none⟩]
        iteration := cursor
        tools_used := (format_messages_for_summary loop.messages).2 } :=
  summarize_loop_cons so cursor loop m ms h

/-- **C9**: when the summarization backend produces no text (a `None` or
empty `content`), the literal string `"Summary generation failed."` is
used as the summary content, and the failure does not propagate:
`summarize_loop` still returns a summarized loop. -/
theorem spec_C9 (so : String → Option String) (cursor : Nat)
    (loop : ReActLoop) (m : Message) (ms : List Message)
    (h : loop.messages = m :: ms)
    (hfail : so (format_messages_for_summary loop.messages).1 = none ∨
      so (format_messages_for_summary loop.messages).1 = some "") :
    summarize_loop so cursor loop = some
      { messages := [m, ⟨"summary", some "Summary generation failed.", none, none, none⟩]
        iteration := cursor
        tools_used := (format_messages_for_summary loop.messages).2 } := by
  rw [summarize_loop_cons so cursor loop m ms h]
  rcases hfail with hf | hf <;> rw [hf] <;> simp [pyOr]

/-- **C10**: `compact_conversation` is not total: whenever
`loops_to_summarize` exceeds the number of loops beyond the internal
cursor, the unguarded `loops[self._loop_summerized]` is out of bounds and
the call fails (an uncaught `IndexError`, modelled by `none`). -/
theorem spec_C10 (so : String → Option String) (cursor n : Nat)
    (loops : List ReActLoop) (h : loops.length - cursor < n) :
    compact_conversation so cursor loops n = none :=
  compact_conversation_oob so n cursor loops h

/-- **C3**: every `ToolCall` of a batch yields exactly one `ToolResult`
(`n` calls give `n` results, in order), each result is a function of its
own call alone (so a fault in one call — content
`"Error executing tool: <message>"` — leaves sibling results unaffected),
and Observe receives the complete result list: it appends the assistant
tool-call message followed by one `tool` message per result. -/
theorem spec_C3 (tex : ToolCall → Except String String) (tcs : List ToolCall)
    (s : AgentState) (i : Nat) (tc : ToolCall) (e : String)
    (hi : tcs[i]? = some tc) (he : tex tc = Except.error e) :
    (act tex tcs).length = tcs.length ∧
    (∀ j : Nat, (act tex tcs)[j]? = (tcs[j]?).map (execute_tool_call tex)) ∧
    (act tex tcs)[i]? = some ⟨tc.id, tc.arguments, "Error executing tool: " ++ e⟩ ∧
    (observe s tcs (act tex tcs)).messages =
      s.messages ++ [⟨"assistant", none, some tcs, none, none⟩] ++
        (act tex tcs).map (fun r =>
          ⟨"tool", some (r.content ++ " (with arguments: " ++ dictStr r.arguments ++ ")"),
           none, some r.tool_call_id, none⟩) := by
  refine ⟨?_, ?_, ?_, observe_messages s tcs (act tex tcs)⟩
  · rw [act_eq_map]; simp
  · intro j; rw [act_eq_map]; simp
  · rw [act_eq_map]; simp [hi, execute_tool_call, he]

/-- **C6**: `compact(loops, n)` summarizes exactly the `n` oldest
not-yet-summarized loops — the indices `[cursor, cursor + n)` — replacing
each in place (all other indices unchanged, length preserved) and
advancing the cursor by exactly `n`; a second call with the same `n` (and
no intervening loop growth) starts at the advanced cursor and leaves every
index below `cursor + n` untouched, so no already-summarized loop is ever
re-summarized. -/
theorem spec_C6 (so : String → Option String) (cursor n : Nat)
    (loops : List ReActLoop)
    (hlen : cursor + n + n ≤ loops.length)
    (hne : ∀ l ∈ loops, l.messages ≠ []) :
    ∃ loops2 loops3,
      compact_conversation so cursor loops n = some (cursor + n, loops2) ∧
      loops2.length = loops.length ∧
      (∀ i : Nat, i < cursor ∨ cursor + n ≤ i → loops2[i]? = loops[i]?) ∧
      (∀ i : Nat, cursor ≤ i → i < cursor + n →
        loops2[i]? = (loops[i]?).bind (summarize_loop so i)) ∧
      compact_conversation so (cursor + n) loops2 n = some (cursor + n + n, loops3) ∧
      (∀ i : Nat, i < cursor + n → loops3[i]? = loops2[i]?) := by
  obtain ⟨loops2, h1, h2, h3, h4, h5⟩ :=
    compact_conversation_spec so n cursor loops (by omega) hne
  obtain ⟨loops3, g1, g2, g3, g4, g5⟩ :=
    compact_conversation_spec so n (cursor + n) loops2 (by omega) h3
  exact ⟨loops2, loops3, h1, h2, h4, h5, g1, fun i hi => g4 i (Or.inl hi)⟩

/-- **C8** (round-trip): for every loop built by the engine (a sequence of
`_add_message` calls in which only assistant messages carry tool calls),
summarizing preserves the `tools_used` set exactly: the tool names the
summarizer collects in one pass over the transcript coincide, as a set,
with those incrementally accumulated via `ReActLoop.add_message`. -/
theorem spec_C8 (so : String → Option String) (cursor iteration : Nat)
    (entries : List AddEntry) (sl : ReActLoop)
    (hroles : ∀ e ∈ entries, pyTruthyCalls e.tool_calls = true → e.role = "assistant")
    (hsl : summarize_loop so cursor (buildLoop iteration entries) = some sl) :
    ∀ x, x ∈ sl.tools_used ↔ x ∈ (buildLoop iteration entries).tools_used := by
  intro x
  cases hm : (buildLoop iteration entries).messages with
  | nil =>
    rw [summarize_loop, ReActLoop.get_messages] at hsl
    rw [hm] at hsl
    simp at hsl
  | cons m ms =>
    rw [summarize_loop_cons so cursor _ m ms hm] at hsl
    have hsl2 : sl.tools_used =
        (format_messages_for_summary (buildLoop iteration entries).messages).2 := by
      cases hsl
      rfl
    rw [hsl2]
    have hbase : ∀ y, y ∈ ((⟨[], iteration, []⟩ : ReActLoop).messages.foldl
        summaryStep ([], [])).2 ↔ y ∈ (⟨[], iteration, []⟩ : ReActLoop).tools_used := by
      intro y; simp
    exact buildLoop_collect_inv entries ⟨[], iteration, []⟩ hroles hbase x

lemma add_message_loops (s : AgentState) (role : String)
    (content : Option String) (tcs : Option (List ToolCall))
    (tcid : Option String) :
    (ReActAgent.add_message s role content tcs tcid).loops =
      modifyLast (fun l => l.add_message role content tcs tcid) s.loops := rfl

lemma build_cons (s : AgentState) (m : Message) (rest : List Message)
    (h : s.messages = m :: rest) :
    build_full_conversation_from_loops s =
      (if m.role = "system" then [m] else []) ++
        (s.loops.map ReActLoop.messages).flatten := by
  unfold build_full_conversation_from_loops
  rw [h]

lemma modifyLast_ne_nil (f : ReActLoop → ReActLoop) :
    ∀ (ls : List ReActLoop), ls ≠ [] → modifyLast f ls ≠ [] := by
  intro ls h
  match ls with
  | [] => exact absurd rfl h
  | [l] => simp [modifyLast]
  | l :: l2 :: rest => simp [modifyLast]

lemma modifyLast_add_flatten (role : String) (content : Option String)
    (tcs : Option (List ToolCall)) (tcid : Option String) :
    ∀ (ls : List ReActLoop), ls ≠ [] →
      ((modifyLast (fun l => l.add_message role content tcs tcid) ls).map
        ReActLoop.messages).flatten =
      (ls.map ReActLoop.messages).flatten ++ [⟨role, content, tcs, tcid, none⟩] := by
  intro ls
  induction ls with
  | nil => intro h; exact absurd rfl h
  | cons l rest ih =>
    intro _
    match rest with
    | [] => simp [modifyLast, ReActLoop.add_message]
    | l2 :: rest2 =>
      have hrec := ih (by simp)
      simp only [modifyLast, List.map_cons, List.flatten_cons] at hrec ⊢
      rw [hrec]
      simp [List.append_assoc]

lemma ConvInv_add (s : AgentState) (role : String) (content : Option String)
    (tcs : Option (List ToolCall)) (tcid : Option String)
    (h : ConvInv s) (hl : s.loops ≠ []) :
    ConvInv (ReActAgent.add_message s role content tcs tcid) := by
  obtain ⟨⟨m, rest, hm, hrole⟩, hb⟩ := h
  have hmsgs' : (ReActAgent.add_message s role content tcs tcid).messages =
      m :: (rest ++ [⟨role, content, tcs, tcid, none⟩]) := by
    rw [add_message_messages, hm]; rfl
  rw [build_cons s m rest hm, hm, if_pos hrole] at hb
  constructor
  · exact ⟨m, rest ++ [⟨role, content, tcs, tcid, none⟩], hmsgs', hrole⟩
  · rw [build_cons _ m (rest ++ [⟨role, content, tcs, tcid, none⟩]) hmsgs',
      if_pos hrole, add_message_loops,
      modifyLast_add_flatten role content tcs tcid s.loops hl, hmsgs',
      ← List.append_assoc, hb]
    rfl

lemma ConvInv_observe (tcs : List ToolCall) :
    ∀ (rs : List ToolResult) (s : AgentState), ConvInv s → s.loops ≠ [] →
      ConvInv (observe s tcs rs) ∧ (observe s tcs rs).loops ≠ [] := by
  have key : ∀ (rs : List ToolResult) (s0 : AgentState), ConvInv s0 → s0.loops ≠ [] →
      ConvInv (rs.foldl (fun st r => ReActAgent.add_message st "tool"
        (some (r.content ++ " (with arguments: " ++ dictStr r.arguments ++ ")"))
        none (some r.tool_call_id)) s0) ∧
      (rs.foldl (fun st r => ReActAgent.add_message st "tool"
        (some (r.content ++ " (with arguments: " ++ dictStr r.arguments ++ ")"))
        none (some r.tool_call_id)) s0).loops ≠ [] := by
    intro rs
    induction rs with
    | nil => intro s0 h hl; exact ⟨h, hl⟩
    | cons r rest ih =>
      intro s0 h hl
      exact ih _ (ConvInv_add s0 _ _ _ _ h hl)
        (by rw [add_message_loops]; exact modifyLast_ne_nil _ _ hl)
  intro rs s h hl
  exact key rs _ (ConvInv_add s _ _ _ _ h hl)
    (by rw [add_message_loops]; exact modifyLast_ne_nil _ _ hl)

lemma runIter_reason_events (cfg : AgentConfig)
    (tex : ToolCall → Except String String) (so : String → Option String)
    (stubs : Nat → IterationStub) :
    ∀ (fuel it : Nat) (s : AgentState) (tr tu : List String) (ev : List RunEvent),
      ConvInv s → s.loops ≠ [] →
      (∀ pre ctx cl, RunEvent.reason pre ctx cl ∈ ev →
        build_full_conversation_from_loops pre = pre.messages ∧
        ctx = build_full_conversation_from_loops pre ++ [nudgeMessage]) →
      ∀ pre ctx cl,
        RunEvent.reason pre ctx cl ∈
          eventsOf (runIter cfg tex so stubs it fuel s tr tu ev) →
        build_full_conversation_from_loops pre = pre.messages ∧
        ctx = build_full_conversation_from_loops pre ++ [nudgeMessage] := by
  intro fuel
  induction fuel with
  | zero =>
    intro it s tr tu ev hInv hl hev pre ctx cl hmem
    simp only [runIter, eventsOf] at hmem
    exact hev pre ctx cl hmem
  | succ fuel ih =>
    intro it s tr tu ev hInv hl hev pre ctx cl hmem
    rw [runIter] at hmem
    simp only [] at hmem
    have hInv1 : ConvInv { s with
        current_context_length := (stubs it).reason_context_length } := hInv
    have hl1 : ({ s with
        current_context_length := (stubs it).reason_context_length } : AgentState).loops ≠ [] := hl
    have hInv2 := ConvInv_add _ "assistant"
      (some ("Thought: " ++ pyOr (stubs it).reason_content "")) none none hInv1 hl1
    have hl2 : (ReActAgent.add_message
        { s with current_context_length := (stubs it).reason_context_length }
        "assistant" (some ("Thought: " ++ pyOr (stubs it).reason_content ""))
        none none).loops ≠ [] := by
      rw [add_message_loops]; exact modifyLast_ne_nil _ _ hl1
    have hnewreason : ∀ p c k,
        RunEvent.reason p c k =
          RunEvent.reason s (s.messages ++ [nudgeMessage]) (stubs it).reason_context_length →
        build_full_conversation_from_loops p = p.messages ∧
        c = build_full_conversation_from_loops p ++ [nudgeMessage] := by
      intro p c k hpk
      injection hpk with hp hc _
      subst hp
      subst hc
      exact ⟨hInv.2, by rw [hInv.2]⟩
    split at hmem
    · -- tool branch: recurse
      refine ih (it + 1) _ _ _ _ ?_ ?_ ?_ pre ctx cl hmem
      · exact (ConvInv_observe _ _ _ hInv2 hl2).1
      · exact (ConvInv_observe _ _ _ hInv2 hl2).2
      · intro p c k hk
        simp only [List.append_assoc, List.mem_append, List.mem_singleton] at hk
        rcases hk with hk | hk | hk | hk
        · exact hev p c k hk
        · exact hnewreason p c k hk
        · exact absurd hk (by simp)
        · exact absurd hk (by simp)
    · -- final-answer branch
      split at hmem
      · -- compaction triggered
        split at hmem
        · simp [eventsOf] at hmem
        · simp only [eventsOf] at hmem
          simp only [List.append_assoc, List.mem_append, List.mem_singleton] at hmem
          rcases hmem with hk | hk | hk | hk
          · exact hev pre ctx cl hk
          · exact hnewreason pre ctx cl hk
          · exact absurd hk (by simp)
          · exact absurd hk (by simp)
      · simp only [eventsOf] at hmem
        simp only [List.append_assoc, List.mem_append, List.mem_singleton] at hmem
        rcases hmem with hk | hk | hk
        · exact hev pre ctx cl hk
        · exact hnewreason pre ctx cl hk
        · exact absurd hk (by simp)

lemma FreshInv_add (s : AgentState) (role : String) (content : Option String)
    (tcs : Option (List ToolCall)) (tcid : Option String)
    (h : FreshInv s) : FreshInv (ReActAgent.add_message s role content tcs tcid) := by
  obtain ⟨hcur, l, hl, hne⟩ := h
  refine ⟨hcur, l.add_message role content tcs tcid, ?_, ?_⟩
  · rw [add_message_loops, hl]; rfl
  · simp [ReActLoop.add_message]

lemma FreshInv_observe (tcs : List ToolCall) :
    ∀ (rs : List ToolResult) (s : AgentState), FreshInv s →
      FreshInv (observe s tcs rs) := by
  have key : ∀ (rs : List ToolResult) (s0 : AgentState), FreshInv s0 →
      FreshInv (rs.foldl (fun st r => ReActAgent.add_message st "tool"
        (some (r.content ++ " (with arguments: " ++ dictStr r.arguments ++ ")"))
        none (some r.tool_call_id)) s0) := by
    intro rs
    induction rs with
    | nil => intro s0 h; exact h
    | cons r rest ih => intro s0 h; exact ih _ (FreshInv_add s0 _ _ _ _ h)
  intro rs s h
  exact key rs _ (FreshInv_add s _ _ _ _ h)

lemma agent_compact_fresh (so : String → Option String) (s : AgentState)
    (h : FreshInv s) : ∃ s2, agent_compact_conversation so s = some s2 := by
  obtain ⟨hcur, l, hl, hne⟩ := h
  obtain ⟨m, ms, hm⟩ : ∃ m ms, l.messages = m :: ms := by
    cases hc : l.messages with
    | nil => exact absurd hc hne
    | cons a as => exact ⟨a, as, rfl⟩
  unfold agent_compact_conversation
  rw [hcur, hl]
  have h0 : (0 : Nat) < ([l] : List ReActLoop).length := by simp
  rw [compact_conversation, dif_pos h0]
  rw [show ([l] : List ReActLoop).get ⟨0, h0⟩ = l from rfl,
    summarize_loop_cons so 0 l m ms hm]
  exact ⟨_, rfl⟩

lemma decideCount_append (a b : List RunEvent) :
    decideCount (a ++ b) = decideCount a + decideCount b := by
  simp [decideCount, List.filter_append]

lemma runIter_all_tools (cfg : AgentConfig)
    (tex : ToolCall → Except String String) (so : String → Option String)
    (stubs : Nat → IterationStub)
    (hall : ∀ i, (stubs i).action.has_tool_calls = true) :
    ∀ (fuel it : Nat) (s : AgentState) (tr tu : List String) (ev : List RunEvent),
      ∃ s2 ev2,
        runIter cfg tex so stubs it fuel s tr tu ev =
          some (RunResult.max_iterations_error (maxIterationsMessage cfg.max_iterations),
            s2, ev2) ∧
        decideCount ev2 = decideCount ev + fuel := by
  intro fuel
  induction fuel with
  | zero =>
    intro it s tr tu ev
    exact ⟨s, ev, rfl, by omega⟩
  | succ fuel ih =>
    intro it s tr tu ev
    obtain ⟨s2, ev2, heq, hdc⟩ := ih (it + 1) _ _ _ _
    refine ⟨s2, ev2, ?_, ?_⟩
    · rw [runIter]
      simp only [hall it, if_true]
      exact heq
    · rw [hdc, decideCount_append, decideCount_append, decideCount_append]
      simp [decideCount]
      omega

lemma agent_compact_ne_none (so : String → Option String) (s : AgentState)
    (l : ReActLoop) (hcur : s.loop_summerized = 0) (hl : s.loops = [l])
    (hne : l.messages ≠ []) : agent_compact_conversation so s ≠ none := by
  obtain ⟨m, ms, hm⟩ : ∃ m ms, l.messages = m :: ms := by
    cases hc : l.messages with
    | nil => exact absurd hc hne
    | cons a as => exact ⟨a, as, rfl⟩
  unfold agent_compact_conversation
  rw [hcur, hl]
  have h0 : (0 : Nat) < ([l] : List ReActLoop).length := by simp
  rw [compact_conversation, dif_pos h0]
  rw [show ([l] : List ReActLoop).get ⟨0, h0⟩ = l from rfl,
    summarize_loop_cons so 0 l m ms hm]
  simp [compact_conversation]

lemma runIter_success_base (cfg : AgentConfig)
    (tex : ToolCall → Except String String) (so : String → Option String)
    (stubs : Nat → IterationStub) (fuel it : Nat) (s : AgentState)
    (tr tu : List String) (ev : List RunEvent)
    (hfresh : FreshInv s)
    (hnot : (stubs it).action.has_tool_calls = false) :
    ∃ s2 ev2,
      runIter cfg tex so stubs it (fuel + 1) s tr tu ev =
        some (RunResult.success
          { answer := pyOr (stubs it).action.content "No answer provided"
            reasoning_trace := tr ++ ["Thought: " ++ pyOr (stubs it).reason_content ""]
            tools_used := tu.dedup
            iterations := it + 1 }, s2, ev2) ∧
      decideCount ev2 = decideCount ev + 1 := by
  obtain ⟨hcur, l, hl, hne⟩ := hfresh
  rw [runIter]
  simp only [hnot, Bool.false_eq_true, if_false]
  split
  · -- compaction triggered
    split
    · -- agent_compact_conversation returned none: impossible under FreshInv
      rename_i heq
      exact absurd heq (agent_compact_ne_none so _
        (l.add_message "assistant"
          (some ("Thought: " ++ pyOr (stubs it).reason_content "")) none none)
        hcur
        (by
          show modifyLast (fun l2 => l2.add_message "assistant"
            (some ("Thought: " ++ pyOr (stubs it).reason_content "")) none none) s.loops = _
          rw [hl]
          rfl)
        (by simp [ReActLoop.add_message]))
    · rename_i s2 heq
      exact ⟨s2, _, rfl, by
        rw [decideCount_append, decideCount_append, decideCount_append]
        simp [decideCount]⟩
  · exact ⟨_, _, rfl, by
      rw [decideCount_append, decideCount_append]
      simp [decideCount]⟩

lemma runIter_success (cfg : AgentConfig)
    (tex : ToolCall → Except String String) (so : String → Option String)
    (stubs : Nat → IterationStub) :
    ∀ (k fuel it : Nat) (s : AgentState) (tr tu : List String) (ev : List RunEvent),
      k < fuel → FreshInv s →
      (∀ i, i < k → (stubs (it + i)).action.has_tool_calls = true) →
      (stubs (it + k)).action.has_tool_calls = false →
      ∃ resp s2 ev2,
        runIter cfg tex so stubs it fuel s tr tu ev =
          some (RunResult.success resp, s2, ev2) ∧
        resp.iterations = it + k + 1 ∧
        decideCount ev2 = decideCount ev + (k + 1) ∧
        resp.answer = pyOr (stubs (it + k)).action.content "No answer provided" ∧
        resp.tools_used.Nodup ∧
        resp.reasoning_trace.length = tr.length + (3 * k + 1) := by
  intro k
  induction k with
  | zero =>
    intro fuel it s tr tu ev hk hfresh _ hnot
    cases fuel with
    | zero => omega
    | succ f =>
      rw [Nat.add_zero] at hnot
      obtain ⟨s2, ev2, heq, hdc⟩ :=
        runIter_success_base cfg tex so stubs f it s tr tu ev hfresh hnot
      refine ⟨_, s2, ev2, heq, by simp, by simpa using hdc, rfl,
        List.nodup_dedup tu, by simp⟩
  | succ k ih =>
    intro fuel it s tr tu ev hk hfresh hhas hnot
    cases fuel with
    | zero => omega
    | succ f =>
      have h0 : (stubs it).action.has_tool_calls = true := by
        have h := hhas 0 (by omega)
        rwa [Nat.add_zero] at h
      rw [runIter]
      simp only [h0, if_true]
      obtain ⟨resp, s2, ev2, heq, hit, hdc, hans, hnd, hlen⟩ :=
        ih f (it + 1) _ _ _ _ (by omega)
          (FreshInv_observe _ _ _
            (FreshInv_add _ "assistant"
              (some ("Thought: " ++ pyOr (stubs it).reason_content "")) none none
              (show FreshInv { s with
                current_context_length := (stubs it).reason_context_length } from hfresh)))
          (fun i hi => by
            have h := hhas (i + 1) (by omega)
            rwa [show it + (i + 1) = it + 1 + i from by omega] at h)
          (by
            have h := hnot
            rwa [show it + (k + 1) = it + 1 + k from by omega] at h)
      rw [show it + 1 + k = it + (k + 1) from by omega] at hans
      refine ⟨resp, s2, ev2, heq, by omega, ?_, hans, hnd, ?_⟩
      · rw [hdc, decideCount_append, decideCount_append, decideCount_append]
        simp [decideCount]
        omega
      · rw [hlen]
        simp
        omega

lemma build_loops_append_nil (s : AgentState) (k : Nat) :
    build_full_conversation_from_loops
      { s with loops := s.loops ++ [⟨[], k, []⟩] } =
    build_full_conversation_from_loops s := by
  unfold build_full_conversation_from_loops
  simp

/-- **C1** (amended): before any compaction (compaction only ever runs after
the final Decide-Action), the reconstruction
`[system message] ++ concatenation of loop messages` computed by
`_build_full_conversation_from_loops` equals the global message list built
by the `_add_message` calls, at every Reason step of `run`; the context
actually supplied to the Reason step is exactly this reconstruction
followed by the one fixed step-by-step instruction user message that
`_reason` appends. -/
theorem spec_C1 (cfg : AgentConfig) (tex : ToolCall → Except String String)
    (so : String → Option String) (stubs : Nat → IterationStub)
    (s : AgentState) (query : String)
    (hsys : ∃ m rest, s.messages = m :: rest ∧ m.role = "system")
    (hbuild : build_full_conversation_from_loops s = s.messages)
    (pre : AgentState) (ctx : List Message) (cl : Nat)
    (hmem : RunEvent.reason pre ctx cl ∈ eventsOf (run cfg tex so stubs s query)) :
    build_full_conversation_from_loops pre = pre.messages ∧
    ctx = build_full_conversation_from_loops pre ++ [nudgeMessage] := by
  unfold run at hmem
  simp only [] at hmem
  refine runIter_reason_events cfg tex so stubs cfg.max_iterations 0 _ [] [] []
    ?_ ?_ ?_ pre ctx cl hmem
  · apply ConvInv_add
    · constructor
      · exact hsys
      · rw [build_loops_append_nil]
        exact hbuild
    · simp
  · rw [add_message_loops]
    exact modifyLast_ne_nil _ _ (by simp)
  · intro p c k hk
    simp at hk

/-- **C2**: if every Decide-Action response requests tool calls, `run`
fails with `MaxIterationsError` naming the limit after exactly
`max_iterations` Decide-Action invocations; if instead the Decide-Action
of some iteration `k < max_iterations` yields no tool calls (all earlier
ones did), `run` returns a structured response whose `iterations` is
`k + 1`, whose `answer` is the response content (with the `"No answer
provided"` fallback), whose `tools_used` is duplicate-free, and whose
reasoning trace has one entry for the final thought plus three per
tool-using iteration. -/
theorem spec_C2 (cfg : AgentConfig) (tex : ToolCall → Except String String)
    (so : String → Option String) (stubs : Nat → IterationStub)
    (s : AgentState) (query : String) :
    ((∀ i, (stubs i).action.has_tool_calls = true) →
      ∃ s2 ev2,
        run cfg tex so stubs s query =
          some (RunResult.max_iterations_error
            (maxIterationsMessage cfg.max_iterations), s2, ev2) ∧
        decideCount ev2 = cfg.max_iterations) ∧
    (∀ k, s.loops = [] → s.loop_summerized = 0 → k < cfg.max_iterations →
      (∀ i, i < k → (stubs i).action.has_tool_calls = true) →
      (stubs k).action.has_tool_calls = false →
      ∃ resp s2 ev2,
        run cfg tex so stubs s query = some (RunResult.success resp, s2, ev2) ∧
        resp.iterations = k + 1 ∧
        decideCount ev2 = k + 1 ∧
        resp.answer = pyOr (stubs k).action.content "No answer provided" ∧
        resp.tools_used.Nodup ∧
        resp.reasoning_trace.length = 3 * k + 1) := by
  constructor
  · intro hall
    unfold run
    simp only []
    obtain ⟨s2, ev2, heq, hdc⟩ :=
      runIter_all_tools cfg tex so stubs hall cfg.max_iterations 0 _ _ _ _
    exact ⟨s2, ev2, heq, by simpa [decideCount] using hdc⟩
  · intro k hloops hcur hk hhas hnot
    unfold run
    simp only []
    have hfresh : FreshInv (ReActAgent.add_message
        { s with loops := s.loops ++ [⟨[], s.loop_counter, []⟩] }
        "user" (some query) none none) := by
      refine ⟨hcur, (⟨[], s.loop_counter, []⟩ : ReActLoop).add_message
        "user" (some query) none none, ?_, by simp [ReActLoop.add_message]⟩
      rw [add_message_loops]
      have : ({ s with loops := s.loops ++ [⟨[], s.loop_counter, []⟩] } :
          AgentState).loops = [⟨[], s.loop_counter, []⟩] := by
        simp [hloops]
      rw [this]
      rfl
    obtain ⟨resp, s2, ev2, heq, hit, hdc, hans, hnd, hlen⟩ :=
      runIter_success cfg tex so stubs k cfg.max_iterations 0 _ [] [] []
        hk hfresh
        (fun i hi => by simpa using hhas i hi)
        (by simpa using hnot)
    refine ⟨resp, s2, ev2, heq, by simpa using hit,
      by simpa [decideCount] using hdc, by simpa using hans, hnd,
      by simpa using hlen⟩

lemma add_message_loop_counter (s : AgentState) (role : String)
    (content : Option String) (tcs : Option (List ToolCall))
    (tcid : Option String) :
    (ReActAgent.add_message s role content tcs tcid).loop_counter =
      s.loop_counter := rfl

lemma add_message_context_length (s : AgentState) (role : String)
    (content : Option String) (tcs : Option (List ToolCall))
    (tcid : Option String) :
    (ReActAgent.add_message s role content tcs tcid).current_context_length =
      s.current_context_length := rfl

lemma observe_loop_counter (s : AgentState) (tcs : List ToolCall)
    (rs : List ToolResult) :
    (observe s tcs rs).loop_counter = s.loop_counter := by
  have key : ∀ (rs : List ToolResult) (s0 : AgentState),
      (rs.foldl (fun st r => ReActAgent.add_message st "tool"
        (some (r.content ++ " (with arguments: " ++ dictStr r.arguments ++ ")"))
        none (some r.tool_call_id)) s0).loop_counter = s0.loop_counter := by
    intro rs
    induction rs with
    | nil => intro s0; rfl
    | cons r rest ih => intro s0; rw [List.foldl_cons, ih]; rfl
  exact (key rs _).trans rfl

lemma observe_context_length (s : AgentState) (tcs : List ToolCall)
    (rs : List ToolResult) :
    (observe s tcs rs).current_context_length = s.current_context_length := by
  have key : ∀ (rs : List ToolResult) (s0 : AgentState),
      (rs.foldl (fun st r => ReActAgent.add_message st "tool"
        (some (r.content ++ " (with arguments: " ++ dictStr r.arguments ++ ")"))
        none (some r.tool_call_id)) s0).current_context_length =
        s0.current_context_length := by
    intro rs
    induction rs with
    | nil => intro s0; rfl
    | cons r rest ih => intro s0; rw [List.foldl_cons, ih]; rfl
  exact (key rs _).trans rfl

lemma agent_compact_fields (so : String → Option String) (s s2 : AgentState)
    (h : agent_compact_conversation so s = some s2) :
    s2.loop_counter = s.loop_counter ∧
    s2.current_context_length = s.current_context_length := by
  unfold agent_compact_conversation at h
  split at h
  · exact absurd h (by simp)
  · cases h
    exact ⟨rfl, rfl⟩

lemma runIter_compaction (cfg : AgentConfig)
    (tex : ToolCall → Except String String) (so : String → Option String)
    (stubs : Nat → IterationStub) :
    ∀ (fuel it : Nat) (s : AgentState) (tr tu : List String) (ev : List RunEvent),
      RunEvent.compact ∉ ev →
      ∀ resp s2 ev2,
        runIter cfg tex so stubs it fuel s tr tu ev =
          some (RunResult.success resp, s2, ev2) →
        s2.loop_counter = s.loop_counter + 1 ∧
        s2.current_context_length = (stubs (resp.iterations - 1)).reason_context_length ∧
        (RunEvent.compact ∈ ev2 ↔
          (cfg.compact_after_loops ≤ s.loop_counter + 1 ∨
           cfg.compact_context_threshold ≤
             (stubs (resp.iterations - 1)).reason_context_length)) ∧
        (RunEvent.compact ∈ ev2 → ev2.getLast? = some RunEvent.compact ∧
          List.count RunEvent.compact ev2 = 1) := by
  intro fuel
  induction fuel with
  | zero =>
    intro it s tr tu ev hne resp s2 ev2 h
    rw [runIter] at h
    simp at h
  | succ fuel ih =>
    intro it s tr tu ev hne resp s2 ev2 h
    rw [runIter] at h
    by_cases hact : (stubs it).action.has_tool_calls = true
    · simp only [hact, if_true] at h
      have hne2 : RunEvent.compact ∉
          (ev ++ [RunEvent.reason s (s.messages ++ [nudgeMessage])
              (stubs it).reason_context_length] ++
            [RunEvent.decide_action (stubs it).action] ++
            [RunEvent.act_observe (act tex ((stubs it).action.tool_calls.getD []))]) := by
        simp [hne]
      have hcon := ih (it + 1) _ _ _ _ hne2 resp s2 ev2 h
      obtain ⟨h1, h2, h3, h4⟩ := hcon
      rw [observe_loop_counter, add_message_loop_counter] at h1
      rw [observe_loop_counter, add_message_loop_counter] at h3
      exact ⟨h1, h2, h3, h4⟩
    · rw [if_neg hact] at h
      simp only [] at h
      split at h
      · rename_i hsc
        split at h
        · simp at h
        · rename_i s2x heqc
          simp only [Option.some.injEq, Prod.mk.injEq, RunResult.success.injEq] at h
          obtain ⟨hresp, hs2, hev2⟩ := h
          subst hresp
          subst hs2
          subst hev2
          obtain ⟨hlc, hcc⟩ := agent_compact_fields so _ _ heqc
          simp only [add_message_loop_counter] at hlc
          simp only [add_message_context_length] at hcc
          simp only [add_message_loop_counter, add_message_context_length] at hsc
          refine ⟨hlc, ?_, ?_, ?_⟩
          · simpa using hcc
          · constructor
            · intro _
              simpa using hsc
            · intro _
              simp
          · intro _
            refine ⟨by simp, ?_⟩
            rw [List.count_append]
            have hz : List.count RunEvent.compact
                (ev ++ [RunEvent.reason s (s.messages ++ [nudgeMessage])
                    (stubs it).reason_context_length] ++
                  [RunEvent.decide_action (stubs it).action]) = 0 := by
              rw [List.count_eq_zero]
              simp [hne]
            rw [hz]
            rfl
      · rename_i hsc
        simp only [Option.some.injEq, Prod.mk.injEq, RunResult.success.injEq] at h
        obtain ⟨hresp, hs2, hev2⟩ := h
        subst hresp
        subst hs2
        subst hev2
        simp only [add_message_loop_counter, add_message_context_length] at hsc
        refine ⟨by simp [add_message_loop_counter], ?_, ?_, ?_⟩
        · simp [add_message_context_length]
        · constructor
          · intro hm
            exact absurd hm (by simp [hne])
          · intro hcond
            exact absurd (by simpa using hcond) hsc
        · intro hm
          exact absurd hm (by simp [hne])

/-- **C4**: on every successful terminal answer the global loop counter is
incremented by exactly one, the recorded context length is the one
reported by the most recent (final) Reason call, and the Compaction
Engine runs synchronously before `run` returns if and only if
`loop_counter ≥ compact_after_loops` or that context length is
`≥ compact_context_threshold`; when it runs it is the last recorded event
and happens exactly once — never during intermediate iterations. -/
theorem spec_C4 (cfg : AgentConfig) (tex : ToolCall → Except String String)
    (so : String → Option String) (stubs : Nat → IterationStub)
    (s : AgentState) (query : String) (resp : AgentResponse)
    (s2 : AgentState) (ev2 : List RunEvent)
    (hrun : run cfg tex so stubs s query = some (RunResult.success resp, s2, ev2)) :
    s2.loop_counter = s.loop_counter + 1 ∧
    s2.current_context_length = (stubs (resp.iterations - 1)).reason_context_length ∧
    (RunEvent.compact ∈ ev2 ↔
      (cfg.compact_after_loops ≤ s.loop_counter + 1 ∨
       cfg.compact_context_threshold ≤
         (stubs (resp.iterations - 1)).reason_context_length)) ∧
    (RunEvent.compact ∈ ev2 → ev2.getLast? = some RunEvent.compact ∧
      List.count RunEvent.compact ev2 = 1) := by
  unfold run at hrun
  simp only [] at hrun
  have hcon := runIter_compaction cfg tex so stubs cfg.max_iterations 0 _ [] [] []
    (by simp) resp s2 ev2 hrun
  simpa only [add_message_loop_counter] using hcon

/-! ### Witnesses and counterexamples -/

/-- **C1, counterexample to the claim as stated**: in a concrete fresh run,
the context supplied to the (first) Reason step is the reconstruction plus
the appended step-by-step instruction message — not "exactly" the
reconstruction. -/
theorem spec_C1_cex :
    firstReasonEvent (eventsOf (run cfgC4 texW soW stubsC4 (initState "s") "q")) =
      some (c1pre, c1pre.messages ++ [nudgeMessage]) ∧
    c1pre.messages ++ [nudgeMessage] ≠ build_full_conversation_from_loops c1pre :=
  ⟨rfl, by decide⟩

/-- Witness for C1 at the concrete first Reason step of a fresh run. -/
theorem spec_C1_witness :
    build_full_conversation_from_loops c1pre = c1pre.messages ∧
    c1pre.messages ++ [nudgeMessage] =
      build_full_conversation_from_loops c1pre ++ [nudgeMessage] :=
  spec_C1 cfgC4 texW soW stubsC4 (initState "s") "q"
    ⟨⟨"system", some "s", none, none, none⟩, [], rfl, rfl⟩ rfl
    c1pre (c1pre.messages ++ [nudgeMessage]) 7 (by decide)

/-- Witness for C2 with `max_iterations = 2` and stubs that always request
a tool call: `MaxIterationsError` after exactly 2 Decide-Action calls. -/
theorem spec_C2_witness :
    ∃ s2 ev2,
      run cfg2W texW soW stubsAllW (initState "sys") "q" =
        some (RunResult.max_iterations_error (maxIterationsMessage cfg2W.max_iterations),
          s2, ev2) ∧
      decideCount ev2 = cfg2W.max_iterations :=
  (spec_C2 cfg2W texW soW stubsAllW (initState "sys") "q").1 (fun _ => rfl)

/-- Witness for C3: a batch of 3 calls whose 2nd faults still yields 3
results, the 2nd carrying the error-message format. -/
theorem spec_C3_witness :
    (act texW tcsW).length = tcsW.length ∧
    (∀ j : Nat, (act texW tcsW)[j]? = (tcsW[j]?).map (execute_tool_call texW)) ∧
    (act texW tcsW)[1]? =
      some ⟨(⟨"2", "stock", []⟩ : ToolCall).id, (⟨"2", "stock", []⟩ : ToolCall).arguments,
        "Error executing tool: " ++ "boom"⟩ ∧
    (observe (initState "sys") tcsW (act texW tcsW)).messages =
      (initState "sys").messages ++ [⟨"assistant", none, some tcsW, none, none⟩] ++
        (act texW tcsW).map (fun r =>
          ⟨"tool", some (r.content ++ " (with arguments: " ++ dictStr r.arguments ++ ")"),
           none, some r.tool_call_id, none⟩) :=
  spec_C3 texW tcsW (initState "sys") 1 ⟨"2", "stock", []⟩ "boom" rfl rfl

/-- Witness for C4 at a concrete run that terminates in one iteration with
context length 7 below both thresholds: counter incremented, no compaction
event. -/
theorem spec_C4_witness :
    c4s2.loop_counter = (initState "s").loop_counter + 1 ∧
    c4s2.current_context_length = (stubsC4 (c4resp.iterations - 1)).reason_context_length ∧
    (RunEvent.compact ∈ c4ev2 ↔
      (cfgC4.compact_after_loops ≤ (initState "s").loop_counter + 1 ∨
       cfgC4.compact_context_threshold ≤
         (stubsC4 (c4resp.iterations - 1)).reason_context_length)) ∧
    (RunEvent.compact ∈ c4ev2 → c4ev2.getLast? = some RunEvent.compact ∧
      List.count RunEvent.compact c4ev2 = 1) :=
  spec_C4 cfgC4 texW soW stubsC4 (initState "s") "q" c4resp c4s2 c4ev2 rfl

/-- Witness for C6 on a two-loop history: the first call summarizes loop 0
and moves the cursor to 1; the second call leaves loop 0 untouched. -/
theorem spec_C6_witness :
    ∃ loops2 loops3,
      compact_conversation soW 0 [loopW, loopW2] 1 = some (0 + 1, loops2) ∧
      loops2.length = ([loopW, loopW2] : List ReActLoop).length ∧
      (∀ i : Nat, i < 0 ∨ 0 + 1 ≤ i →
        loops2[i]? = ([loopW, loopW2] : List ReActLoop)[i]?) ∧
      (∀ i : Nat, 0 ≤ i → i < 0 + 1 →
        loops2[i]? = (([loopW, loopW2] : List ReActLoop)[i]?).bind (summarize_loop soW i)) ∧
      compact_conversation soW (0 + 1) loops2 1 = some (0 + 1 + 1, loops3) ∧
      (∀ i : Nat, i < 0 + 1 → loops3[i]? = loops2[i]?) :=
  spec_C6 soW 0 1 [loopW, loopW2] (by decide) (by decide)

/-- Witness for C7 on a concrete loop and cursor value 3. -/
theorem spec_C7_witness :
    summarize_loop soW 3 loopW = some
      { messages := [⟨"user", some "q", none, none, none⟩,
          ⟨"summary",
           some (pyOr (soW (format_messages_for_summary loopW.messages).1)
             "Summary generation failed."),
           none, none, none⟩]
        iteration := 3
        tools_used := (format_messages_for_summary loopW.messages).2 } :=
  spec_C7 soW 3 loopW ⟨"user", some "q", none, none, none⟩
    [⟨"assistant", none, some [⟨"1", "calculator", []⟩], none, none⟩] rfl

/-- Witness for C8 on a concrete engine-built loop using two tools. -/
theorem spec_C8_witness :
    ("calculator" ∈ slW.tools_used ↔ "calculator" ∈ (buildLoop 0 entriesW).tools_used) ∧
    ("stock" ∈ slW.tools_used ↔ "stock" ∈ (buildLoop 0 entriesW).tools_used) :=
  ⟨spec_C8 soW 0 0 entriesW slW (by decide) rfl "calculator",
   spec_C8 soW 0 0 entriesW slW (by decide) rfl "stock"⟩

/-- Witness for C9: a backend returning no text yields the literal
placeholder summary without failing. -/
theorem spec_C9_witness :
    summarize_loop soFailW 0 loopW = some
      { messages := [⟨"user", some "q", none, none, none⟩,
          ⟨"summary", some "Summary generation failed.", none, none, none⟩]
        iteration := 0
        tools_used := (format_messages_for_summary loopW.messages).2 } :=
  spec_C9 soFailW 0 loopW ⟨"user", some "q", none, none, none⟩
    [⟨"assistant", none, some [⟨"1", "calculator", []⟩], none, none⟩] rfl (Or.inl rfl)

/-- Witness for C10: after `clear_loop_history` empties the loop list while
the cursor stays at 1, compaction hits the out-of-bounds index. -/
theorem spec_C10_witness :
    compact_conversation soW c10state.loop_summerized
      (clear_loop_history c10state).loops 1 = none :=
  spec_C10 soW c10state.loop_summerized 1 (clear_loop_history c10state).loops (by decide)

end IntelligentAgent
